import Mathlib

/- Verification of the twitchypy-irc client (src/twitch/twitch.py).
   Python strings are modelled as List Char; Python exceptions become the
   error branch of Except. -/

namespace Twitchy

/-- Decrement an optional split budget (Python maxsplit; none = unlimited). -/
def decOpt : Option Nat → Option Nat
  | none => none
  | some n => some (n - 1)

/-- Python str.split(sep, maxsplit) for a single-character separator sep;
acc holds the characters of the current field in reverse. -/
def pysplit1Aux (sep : Char) : Option Nat → List Char → List Char → List (List Char)
  | _, acc, [] => [acc.reverse]
  | m, acc, c :: rest =>
    if c = sep ∧ m ≠ some 0 then
      acc.reverse :: pysplit1Aux sep (decOpt m) [] rest
    else
      pysplit1Aux sep m (c :: acc) rest

def pysplit1 (sep : Char) (m : Option Nat) (s : List Char) : List (List Char) :=
  pysplit1Aux sep m [] s

/-- Python str.split(sep, maxsplit) for a two-character separator s1s2
(used for the " :" separator of TwitchPrivateMessage.parse). -/
def pysplit2Aux (s1 s2 : Char) : Option Nat → List Char → List Char → List (List Char)
  | m, acc, c1 :: c2 :: rest =>
    if c1 = s1 ∧ c2 = s2 ∧ m ≠ some 0 then
      acc.reverse :: pysplit2Aux s1 s2 (decOpt m) [] rest
    else
      pysplit2Aux s1 s2 m (c1 :: acc) (c2 :: rest)
  | _, acc, [c] => [(c :: acc).reverse]
  | _, acc, [] => [acc.reverse]

def pysplit2 (s1 s2 : Char) (m : Option Nat) (s : List Char) : List (List Char) :=
  pysplit2Aux s1 s2 m [] s

/-- Python str.startswith. -/
def pyStartsWith : List Char → List Char → Bool
  | [], _ => true
  | _ :: _, [] => false
  | p :: ps, c :: cs => p = c && pyStartsWith ps cs

/-- Python substring containment (the in operator on str). -/
def pyin (sub : List Char) : List Char → Bool
  | [] => sub.isEmpty
  | c :: rest => pyStartsWith sub (c :: rest) || pyin sub rest

def pyIsSpace (c : Char) : Bool :=
  c = ' ' || c = '\t' || c = '\n' || c = '\r' || c = '\x0b' || c = '\x0c'

/-- Python str.strip() with no argument: whitespace removed at both ends. -/
def pystrip (s : List Char) : List Char :=
  ((s.dropWhile pyIsSpace).reverse.dropWhile pyIsSpace).reverse

/-- Python str.lstrip(chars): removes leading characters drawn from the
character SET chars (not the literal prefix chars). -/
def pylstrip (chars : List Char) (s : List Char) : List Char :=
  s.dropWhile (fun c => chars.contains c)

/-- True when the two-character sequence s1s2 occurs somewhere in s. -/
def hasPair (s1 s2 : Char) : List Char → Bool
  | c1 :: c2 :: rest => (c1 = s1 && c2 = s2) || hasPair s1 s2 (c2 :: rest)
  | _ => false

/-- Python exceptions raised by the translated code. keyError carries the
missing dictionary key (the spec's MissingTag); valueError covers both
tag-unpacking arity mismatches and invalid int literals (the spec's
InvalidInteger); runtimeError models threading.Thread.join() being called
on the current thread; oserror models socket operations on a closed socket;
unicodeDecodeError models bytes.decode("utf-8") on an invalid or truncated
byte sequence. -/
inductive PyErr
  | keyError (key : List Char)
  | valueError
  | indexError
  | runtimeError
  | oserror
  | unicodeDecodeError
deriving DecidableEq

/-- Python int(str): optional surrounding whitespace, optional sign, decimal
digits (digit-grouping underscores and non-ASCII digits are not modelled,
no claim exercises them). -/
def natOfDigits (l : List Char) : Nat :=
  l.foldl (fun n c => n * 10 + (c.toNat - 48)) 0

def allDigits (l : List Char) : Bool :=
  l.all (fun c => c.isDigit)

def pyint (s : List Char) : Except PyErr Int :=
  match pystrip s with
  | '-' :: ds => if ds ≠ [] ∧ allDigits ds then .ok (-(natOfDigits ds : Int)) else .error .valueError
  | '+' :: ds => if ds ≠ [] ∧ allDigits ds then .ok (natOfDigits ds : Int) else .error .valueError
  | ds => if ds ≠ [] ∧ allDigits ds then .ok (natOfDigits ds : Int) else .error .valueError

/-- Python negative index [-1]: last element, IndexError on an empty list. -/
def pylast : List α → Except PyErr α
  | [] => .error .indexError
  | [x] => .ok x
  | _ :: x :: rest => pylast (x :: rest)

/-- Python list indexing l[i], IndexError past the end. -/
def pyindex : List α → Nat → Except PyErr α
  | [], _ => .error .indexError
  | x :: _, 0 => .ok x
  | _ :: rest, n + 1 => pyindex rest n

/-- Lookup in a Python dict built in insertion order: the LAST binding of a
key wins, as in a dict comprehension with duplicate keys. -/
def dlookup (k : List Char) : List (List Char × List Char) → Option (List Char)
  | [] => none
  | p :: rest =>
    match dlookup k rest with
    | some v => some v
    | none => if p.1 = k then some p.2 else none

/-- The dict comprehension of TwitchPrivateMessage.parse (line 35): split
every ';'-separated token on every '=' and unpack into exactly (key, value);
any other arity raises ValueError, the first offending token winning. -/
def mkDict : List (List Char) → Except PyErr (List (List Char × List Char))
  | [] => .ok []
  | t :: ts =>
    match pysplit1 '=' none t with
    | [k, v] =>
      match mkDict ts with
      | .ok d => .ok ((k, v) :: d)
      | .error e => .error e
    | _ => .error .valueError

/-- tags[k]: the value, or KeyError(k) when the key is absent. -/
def getTag (tags : List (List Char × List Char)) (k : List Char) : Except PyErr (List Char) :=
  match dlookup k tags with
  | some v => .ok v
  | none => .error (.keyError k)

/-- The TwitchPrivateMessage dataclass (src/twitch/twitch.py lines 8-26).
Python's Set[str] badges field is modelled as the list of entries in
insertion order; every property stated about it below is membership- or
any-based, insensitive to duplication and order. -/
structure TwitchPrivateMessage where
  badges : List (List Char)
  color : List Char
  name : List Char
  is_first_message : Bool
  message_id : List Char
  is_moderator : Bool
  is_broadcaster : Bool
  is_returning_chatter : Bool
  room_id : Int
  is_subscriber : Bool
  is_turbo : Bool
  user_id : Int
  channel : List Char
  content : List Char
deriving DecidableEq

/-- Sequencing with Python exception propagation: run f on the value unless
an exception is already in flight. -/
def exbind (x : Except PyErr α) (f : α → Except PyErr β) : Except PyErr β :=
  match x with
  | .error e => .error e
  | .ok a => f a

/-- TwitchPrivateMessage.parse (src/twitch/twitch.py lines 28-66), translated
statement by statement in source order; an uncaught Python exception is the
error branch. -/
def parse (message : List Char) : Except PyErr TwitchPrivateMessage :=
  let parts := pysplit2 ' ' ':' (some 3) message
  exbind (pyindex parts 0) fun p0 =>
  exbind (mkDict (pysplit1 ';' none p0)) fun tags =>
  exbind (getTag tags (("badges").data)) fun vBadges =>
  let badges := pysplit1 ',' none vBadges
  exbind (getTag tags (("color").data)) fun color =>
  exbind (getTag tags (("display-name").data)) fun name =>
  exbind (getTag tags (("first-msg").data)) fun vFirst =>
  exbind (getTag tags (("id").data)) fun message_id =>
  exbind (getTag tags (("mod").data)) fun vMod =>
  let is_broadcaster := badges.any (fun b => pyStartsWith (("broadcaster/").data) b)
  exbind (getTag tags (("returning-chatter").data)) fun vRet =>
  exbind (getTag tags (("room-id").data)) fun vRoom =>
  exbind (pyint vRoom) fun room_id =>
  exbind (getTag tags (("subscriber").data)) fun vSub =>
  exbind (getTag tags (("turbo").data)) fun vTurbo =>
  exbind (getTag tags (("user-id").data)) fun vUser =>
  exbind (pyint vUser) fun user_id =>
  exbind (pyindex parts 1) fun p1 =>
  exbind (pylast (pysplit1 ' ' none p1)) fun lastTok =>
  let channel := pylstrip [('#')] lastTok
  exbind (pyindex parts 2) fun content =>
  .ok { badges := badges
        color := color
        name := name
        is_first_message := vFirst == ("1").data
        message_id := message_id
        is_moderator := vMod == ("1").data
        is_broadcaster := is_broadcaster
        is_returning_chatter := vRet == ("1").data
        room_id := room_id
        is_subscriber := vSub == ("1").data
        is_turbo := vTurbo == ("1").data
        user_id := user_id
        channel := channel
        content := content }

/-- State of a Twitch client object (src/twitch/twitch.py class Twitch).
sent records every frame passed to socket.send in order; threadSet is true
once connect() has installed the handler thread object; sockClosed marks a
closed socket (a closed Python socket cannot be connected again). -/
structure ClientState where
  user : List Char
  token : List Char
  sent : List (List Char)
  queue : List TwitchPrivateMessage
  is_running : Bool
  is_reconnecting : Bool
  threadSet : Bool
  sockConnected : Bool
  sockClosed : Bool
deriving DecidableEq

def defaultUser : List Char := ("justinfan12345").data

def defaultToken : List Char := ("oauth:1234567890").data

/-- Twitch.__init__ (lines 78-91). Note token.lstrip("oauth:") strips the
character set, not the literal prefix. -/
def initClient (user token : List Char) : ClientState :=
  { user := user
    token := pylstrip (("oauth:").data) token
    sent := []
    queue := []
    is_running := false
    is_reconnecting := false
    threadSet := false
    sockConnected := false
    sockClosed := false }

def passFrame (token : List Char) : List Char :=
  ("PASS oauth:").data ++ token ++ [('\n')]

def nickFrame (user : List Char) : List Char :=
  ("NICK ").data ++ user ++ [('\n')]

def capTagsFrame : List Char := ("CAP REQ :twitch.tv/tags\n").data

def capCmdsFrame : List Char := ("CAP REQ :twitch.tv/commands\n").data

def pongFrame : List Char := ("PONG :tmi.twitch.tv\n").data

/-- Twitch.connect (lines 115-130): socket connect (an OSError on a closed
socket), the four handshake sends in order, then the handler thread is
started and __is_running set. -/
def connect (st : ClientState) : Except PyErr ClientState :=
  if st.sockClosed then .error .oserror
  else .ok { st with
    sockConnected := true
    sent := st.sent ++ [passFrame st.token, nickFrame st.user, capTagsFrame, capCmdsFrame]
    is_running := true
    threadSet := true }

/-- Twitch.disconnect (lines 132-143). fromHandler records which thread runs
the call: the RECONNECT branch of __message_handler calls disconnect() on
the handler thread itself, where self.__thread.join() raises
RuntimeError (cannot join current thread). Otherwise the thread is joined,
the socket closed, and the queue drained unless a reconnection is in
progress. -/
def disconnect (fromHandler : Bool) (st : ClientState) : Except PyErr ClientState :=
  let st1 := { st with is_running := false }
  if st1.threadSet ∧ fromHandler then .error .runtimeError
  else
    let st2 := { st1 with sockConnected := false, sockClosed := true }
    if st2.is_reconnecting then .ok st2 else .ok { st2 with queue := [] }

/-- One iteration of Twitch.__message_handler (lines 185-200) on one framed
line, running on the handler thread. -/
def handleLine (st : ClientState) (line : List Char) : Except PyErr ClientState :=
  if pyStartsWith (("PING").data) line then
    .ok { st with sent := st.sent ++ [pongFrame] }
  else if pyin (("PRIVMSG").data) line then
    match parse line with
    | .ok m => .ok { st with queue := st.queue ++ [m] }
    | .error e => .error e
  else if pyin (("RECONNECT").data) line then
    match disconnect true { st with is_reconnecting := true } with
    | .error e => .error e
    | .ok st1 =>
      match connect st1 with
      | .error e => .error e
      | .ok st2 => .ok { st2 with is_reconnecting := false }
  else .ok st

/-- Twitch.__message_handler over a list of framed lines: an uncaught Python
exception aborts the loop (the daemon thread dies) and is returned as the
error value. -/
def messageHandler : ClientState → List (List Char) → Except PyErr ClientState
  | st, [] => .ok st
  | st, l :: ls =>
    match handleLine st l with
    | .ok st1 => messageHandler st1 ls
    | .error e => .error e

/-- The line-extraction loop of Twitch.__recv (lines 169-175): repeatedly
split the buffer at the first newline; returns the completed raw lines in
order and the trailing partial line left in the buffer. -/
def extract : List Char → List (List Char) × List Char
  | [] => ([], [])
  | c :: rest =>
    if c = '\n' then ([] :: (extract rest).1, (extract rest).2)
    else
      match extract rest with
      | ([], b) => ([], c :: b)
      | (l :: ls, b) => ((c :: l) :: ls, b)

/-- Feeding one already-decoded chunk to the Line Framer: append to the
buffer, emit every complete line stripped (yield line.strip()), keep the
rest. This is the post-decode part of one __recv iteration; the per-chunk
decode of line 171 is recvChunk below. -/
def feed (buf chunk : List Char) : List (List Char) × List Char :=
  ((extract (buf ++ chunk)).1.map pystrip, (extract (buf ++ chunk)).2)

/-- Feeding a sequence of already-decoded chunks, accumulating the emitted
lines in order. -/
def feedAll : List Char → List (List Char) → List (List Char) × List Char
  | buf, [] => ([], buf)
  | buf, ch :: chs =>
    ((feed buf ch).1 ++ (feedAll (feed buf ch).2 chs).1, (feedAll (feed buf ch).2 chs).2)

/-- Python bytes.decode("utf-8") over a byte list: strict UTF-8 decoding.
Stray continuation bytes, invalid lead bytes, overlong encodings,
surrogates, out-of-range code points, and a sequence truncated at the end
of the chunk all raise UnicodeDecodeError, exactly as the per-chunk decode
of Twitch.__recv (line 171) does when a recv boundary falls inside a
multi-byte character. -/
def utf8Decode : List Nat → Except PyErr (List Char)
  | [] => .ok []
  | b :: rest =>
    if b < 0x80 then
      match utf8Decode rest with
      | .ok s => .ok (Char.ofNat b :: s)
      | .error e => .error e
    else if b < 0xC2 then .error .unicodeDecodeError
    else if b < 0xE0 then
      match rest with
      | c1 :: rest2 =>
        if 0x80 ≤ c1 ∧ c1 < 0xC0 then
          match utf8Decode rest2 with
          | .ok s => .ok (Char.ofNat ((b - 0xC0) * 0x40 + (c1 - 0x80)) :: s)
          | .error e => .error e
        else .error .unicodeDecodeError
      | [] => .error .unicodeDecodeError
    else if b < 0xF0 then
      match rest with
      | c1 :: c2 :: rest2 =>
        if (0x80 ≤ c1 ∧ c1 < 0xC0) ∧ (0x80 ≤ c2 ∧ c2 < 0xC0) then
          if (b - 0xE0) * 0x1000 + (c1 - 0x80) * 0x40 + (c2 - 0x80) < 0x800
              ∨ (0xD800 ≤ (b - 0xE0) * 0x1000 + (c1 - 0x80) * 0x40 + (c2 - 0x80)
                  ∧ (b - 0xE0) * 0x1000 + (c1 - 0x80) * 0x40 + (c2 - 0x80) < 0xE000) then
            .error .unicodeDecodeError
          else
            match utf8Decode rest2 with
            | .ok s => .ok (Char.ofNat ((b - 0xE0) * 0x1000 + (c1 - 0x80) * 0x40 + (c2 - 0x80)) :: s)
            | .error e => .error e
        else .error .unicodeDecodeError
      | _ => .error .unicodeDecodeError
    else if b < 0xF5 then
      match rest with
      | c1 :: c2 :: c3 :: rest2 =>
        if (0x80 ≤ c1 ∧ c1 < 0xC0) ∧ (0x80 ≤ c2 ∧ c2 < 0xC0) ∧ (0x80 ≤ c3 ∧ c3 < 0xC0) then
          if (b - 0xF0) * 0x40000 + (c1 - 0x80) * 0x1000 + (c2 - 0x80) * 0x40 + (c3 - 0x80) < 0x10000
              ∨ 0x110000 ≤ (b - 0xF0) * 0x40000 + (c1 - 0x80) * 0x1000 + (c2 - 0x80) * 0x40 + (c3 - 0x80) then
            .error .unicodeDecodeError
          else
            match utf8Decode rest2 with
            | .ok s => .ok (Char.ofNat ((b - 0xF0) * 0x40000 + (c1 - 0x80) * 0x1000 + (c2 - 0x80) * 0x40 + (c3 - 0x80)) :: s)
            | .error e => .error e
        else .error .unicodeDecodeError
      | _ => .error .unicodeDecodeError
    else .error .unicodeDecodeError

/-- One full __recv iteration at byte level (lines 171-175): decode the
received chunk with utf-8 — an uncaught UnicodeDecodeError kills the
generator and with it the handler thread — then append to the buffer and
extract complete lines. -/
def recvChunk (buf : List Char) (chunk : List Nat) : Except PyErr (List (List Char) × List Char) :=
  match utf8Decode chunk with
  | .error e => .error e
  | .ok s => .ok (feed buf s)

/-- The byte-level __recv loop over a sequence of received byte chunks,
accumulating the emitted lines in order. -/
def recvBytes : List Char → List (List Nat) → Except PyErr (List (List Char) × List Char)
  | buf, [] => .ok ([], buf)
  | buf, ch :: chs =>
    match recvChunk buf ch with
    | .error e => .error e
    | .ok p =>
      match recvBytes p.2 chs with
      | .error e => .error e
      | .ok q => .ok (p.1 ++ q.1, q.2)

/-- The spec's example raw chat line, exactly as the Dispatch Loop receives
it (leading tag marker '@' included). -/
def exampleLine : List Char :=
  ("@badges=subscriber/12,premium/1;color=#FF0000;display-name=Foo;first-msg=0;id=abc-123;mod=0;returning-chatter=0;room-id=12345;subscriber=1;turbo=0;user-id=67890 :foo!foo@foo.tmi.twitch.tv PRIVMSG #bar :hi there : friend").data

/-- The same chat line with the leading '@' removed, so that the tag lookups
of parse succeed; its chat text contains the two-character sequence " :". -/
def exampleLineNoAt : List Char :=
  ("badges=subscriber/12,premium/1;color=#FF0000;display-name=Foo;first-msg=0;id=abc-123;mod=0;returning-chatter=0;room-id=12345;subscriber=1;turbo=0;user-id=67890 :foo!foo@foo.tmi.twitch.tv PRIVMSG #bar :hi there : friend").data

/-- The record parse actually produces for exampleLineNoAt: badge entries
keep their version suffix and the content is cut at the chat text's own
" :" separator. -/
def exampleNoAtResult : TwitchPrivateMessage :=
  { badges := [("subscriber/12").data, ("premium/1").data]
    color := ("#FF0000").data
    name := ("Foo").data
    is_first_message := false
    message_id := ("abc-123").data
    is_moderator := false
    is_broadcaster := false
    is_returning_chatter := false
    room_id := 12345
    is_subscriber := true
    is_turbo := false
    user_id := 67890
    channel := ("bar").data
    content := ("hi there").data }

/-- A line whose tags are all present but whose color value itself contains
an '=' character. -/
def equalsInValueLine : List Char :=
  ("badges=subscriber/12;color=#FF=00;display-name=Foo;first-msg=0;id=abc-123;mod=0;returning-chatter=0;room-id=12345;subscriber=1;turbo=0;user-id=67890 :foo!foo@foo.tmi.twitch.tv PRIVMSG #bar :hi").data

/-- A line carrying a single versionless broadcaster badge. -/
def versionlessBroadcasterLine : List Char :=
  ("badges=broadcaster;color=#FF0000;display-name=Foo;first-msg=0;id=abc-123;mod=0;returning-chatter=0;room-id=12345;subscriber=1;turbo=0;user-id=67890 :foo!foo@foo.tmi.twitch.tv PRIVMSG #bar :hi").data

/-- The badge-name portion preceding the /version suffix (the spec's notion
of a badge name: badge.split("/")[0]). -/
def badgeName (e : List Char) : List Char :=
  match pysplit1 '/' none e with
  | n :: _ => n
  | [] => e

/-- The eleven required tag keys, in the order parse reads them. -/
def requiredTags : List (List Char) :=
  [("badges").data, ("color").data, ("display-name").data, ("first-msg").data,
   ("id").data, ("mod").data, ("returning-chatter").data, ("room-id").data,
   ("subscriber").data, ("turbo").data, ("user-id").data]

/-- Rebuild a tag block from key-value pairs. -/
def tagBlock (ps : List (List Char × List Char)) : List Char :=
  List.intercalate [(';')] (ps.map (fun p => p.1 ++ ('=') :: p.2))

/-- A concrete client state as left by a successful connect(): handler
thread installed and running, socket open, queue empty. -/
def connectedState : ClientState :=
  { user := defaultUser
    token := pylstrip (("oauth:").data) defaultToken
    sent := []
    queue := []
    is_running := true
    is_reconnecting := false
    threadSet := true
    sockConnected := true
    sockClosed := false }

/-- The forced-reconnect line Twitch sends. -/
def reconnectLine : List Char := (":tmi.twitch.tv RECONNECT").data

/-- The example line's tag block after the badges pair, the middle token
region, and the chat text, used to build lines with an arbitrary badges
value. -/
def tagsTail : List Char :=
  ("color=#FF0000;display-name=Foo;first-msg=0;id=abc-123;mod=0;returning-chatter=0;room-id=12345;subscriber=1;turbo=0;user-id=67890").data

def midToken : List Char := ("foo!foo@foo.tmi.twitch.tv PRIVMSG #bar").data

/-- The ';'-separated fields of tagsTail. -/
def tagFields : List (List Char) :=
  [("color=#FF0000").data, ("display-name=Foo").data, ("first-msg=0").data,
   ("id=abc-123").data, ("mod=0").data, ("returning-chatter=0").data,
   ("room-id=12345").data, ("subscriber=1").data, ("turbo=0").data,
   ("user-id=67890").data]

/-- The key-value pairs of tagsTail. -/
def tagPairsTail : List (List Char × List Char) :=
  [(("color").data, ("#FF0000").data), (("display-name").data, ("Foo").data),
   (("first-msg").data, ("0").data), (("id").data, ("abc-123").data),
   (("mod").data, ("0").data), (("returning-chatter").data, ("0").data),
   (("room-id").data, ("12345").data), (("subscriber").data, ("1").data),
   (("turbo").data, ("0").data), (("user-id").data, ("67890").data)]

/-- The tag block of the example line with an arbitrary raw badges value. -/
def tagBlockWithBadges (bv : List Char) : List Char :=
  (("badges").data ++ ('=') :: bv) ++ (';') :: tagsTail

/-- A chat-message line identical to the example line (without its '@')
except that the raw badges value is bv. -/
def lineWithBadges (bv : List Char) : List Char :=
  tagBlockWithBadges bv ++ (' ') :: (':') :: (midToken ++ (' ') :: (':') :: ("hi").data)

/-- The record parse produces for lineWithBadges bv: the badges field is the
raw comma-split of bv, entries kept whole, and isBroadcaster is true exactly
when some raw entry starts with "broadcaster/". -/
def resultWithBadges (bv : List Char) : TwitchPrivateMessage :=
  { badges := pysplit1 ',' none bv
    color := ("#FF0000").data
    name := ("Foo").data
    is_first_message := false
    message_id := ("abc-123").data
    is_moderator := false
    is_broadcaster := (pysplit1 ',' none bv).any (fun b => pyStartsWith (("broadcaster/").data) b)
    is_returning_chatter := false
    room_id := 12345
    is_subscriber := true
    is_turbo := false
    user_id := 67890
    channel := ("bar").data
    content := ("hi").data }

/-- A chat-message line with an arbitrary tag block (given as key-value
pairs) and the example line's command region and chat text. -/
def mkLine (ps : List (List Char × List Char)) : List Char :=
  tagBlock ps ++ (' ') :: (':') :: (midToken ++ (' ') :: (':') :: ("hi").data)

/-- The residual computation of parse on a line mkLine ps once the tag dict
tags has been built: the tag lookups, conversions and channel/content
extraction, in source order. parse (mkLine ps) reduces to parseTagsOnly ps
(theorem parse_tagBlock below). -/
def parseTagsOnly (tags : List (List Char × List Char)) : Except PyErr TwitchPrivateMessage :=
  exbind (getTag tags (("badges").data)) fun vBadges =>
  let badges := pysplit1 ',' none vBadges
  exbind (getTag tags (("color").data)) fun color =>
  exbind (getTag tags (("display-name").data)) fun name =>
  exbind (getTag tags (("first-msg").data)) fun vFirst =>
  exbind (getTag tags (("id").data)) fun message_id =>
  exbind (getTag tags (("mod").data)) fun vMod =>
  let is_broadcaster := badges.any (fun b => pyStartsWith (("broadcaster/").data) b)
  exbind (getTag tags (("returning-chatter").data)) fun vRet =>
  exbind (getTag tags (("room-id").data)) fun vRoom =>
  exbind (pyint vRoom) fun room_id =>
  exbind (getTag tags (("subscriber").data)) fun vSub =>
  exbind (getTag tags (("turbo").data)) fun vTurbo =>
  exbind (getTag tags (("user-id").data)) fun vUser =>
  exbind (pyint vUser) fun user_id =>
  exbind (pylast (pysplit1 ' ' none midToken)) fun lastTok =>
  let channel := pylstrip [('#')] lastTok
  .ok { badges := badges
        color := color
        name := name
        is_first_message := vFirst == ("1").data
        message_id := message_id
        is_moderator := vMod == ("1").data
        is_broadcaster := is_broadcaster
        is_returning_chatter := vRet == ("1").data
        room_id := room_id
        is_subscriber := vSub == ("1").data
        is_turbo := vTurbo == ("1").data
        user_id := user_id
        channel := channel
        content := ("hi").data }

/-- A chat-message line whose tag block carries, in canonical order, every
required tag except k, each with the value vals assigns to its key. -/
def lineMissing (k : List Char) (vals : List Char → List Char) : List Char :=
  mkLine ((requiredTags.filter (fun q => q ≠ k)).map (fun q => (q, vals q)))

/-- A concrete value assignment used to witness the missing-tag theorem. -/
def exampleVals : List Char → List Char := fun q =>
  if q = ("room-id").data then ("12345").data
  else if q = ("user-id").data then ("67890").data
  else ("0").data

/-- C1: parsing the spec's example raw line does not succeed with the
claimed record; the leading '@' is never stripped, so the first tag key is
"@badges" and the lookup tags["badges"] raises KeyError("badges"). -/
theorem parse_example_keyerror :
    parse exampleLine = .error (.keyError (("badges").data)) := rfl

/-- C2: on a well-formed line whose chat text contains " :", the extracted
content is NOT the full substring after the channel token: parse splits the
whole line on " :" with maxsplit 3 and keeps only parts[2], so the chat
text "hi there : friend" is truncated to "hi there" (and the badge entries
keep their version suffixes). -/
theorem parse_truncates_content :
    parse exampleLineNoAt = .ok exampleNoAtResult := rfl

/-- C4 counterexample: on the example line the parsed badges field keeps the
raw entry "subscriber/12"; the badge set claimed by the spec (names with
the version suffix discarded) would contain "subscriber", which is not a
member of the parsed set. -/
theorem badges_keep_suffix_counterexample :
    (parse exampleLineNoAt).map (fun r => r.badges)
        = .ok [("subscriber/12").data, ("premium/1").data]
      ∧ (("subscriber").data) ∉ [("subscriber/12").data, ("premium/1").data]
      ∧ (("subscriber/12").data) ∈ [("subscriber/12").data, ("premium/1").data] :=
  ⟨rfl, by decide, by decide⟩

/-- C5 counterexample: a line whose parse fails (here the spec's own example
line, whose tags still carry the leading '@') terminates the message
handler with the uncaught exception, and the following well-formed line is
never processed; fed alone, that second line would have produced one queued
message. -/
theorem parse_failure_kills_loop_counterexample :
    messageHandler connectedState [exampleLine, exampleLineNoAt]
        = .error (.keyError (("badges").data))
      ∧ (messageHandler connectedState [exampleLineNoAt]).map (fun st => st.queue.length)
        = .ok 1 :=
  ⟨rfl, rfl⟩

/-- C5 amended: a parse failure on a chat-message line is fatal to the
Dispatch Loop: the exception propagates out of __message_handler, so the
loop returns the error and no subsequent line is processed. -/
theorem parse_failure_fatal (st : ClientState) (bad : List Char) (e : PyErr)
    (rest : List (List Char))
    (hping : pyStartsWith (("PING").data) bad = false)
    (hpriv : pyin (("PRIVMSG").data) bad = true)
    (hparse : parse bad = .error e) :
    messageHandler st (bad :: rest) = .error e := by
  have h : handleLine st bad = .error e := by
    unfold handleLine
    rw [hping, hpriv, hparse]
    simp
  unfold messageHandler
  rw [h]

/-- C5 amended witness: the fatal-parse-failure theorem applied to the
example line. -/
theorem parse_failure_fatal_witness :
    pyStartsWith (("PING").data) exampleLine = false
      ∧ pyin (("PRIVMSG").data) exampleLine = true
      ∧ messageHandler connectedState [exampleLine, exampleLineNoAt]
          = .error (.keyError (("badges").data)) :=
  ⟨by decide, by decide,
    parse_failure_fatal connectedState exampleLine (.keyError (("badges").data))
      [exampleLineNoAt] (by decide) (by decide) rfl⟩

/-- C6: on receiving a forced-reconnect line the handler does not tear down
and rebuild the connection; disconnect() is executed on the handler thread
itself, where self.__thread.join() raises RuntimeError("cannot join current
thread"), killing the Dispatch Loop before any new handshake. -/
theorem reconnect_crashes_handler :
    messageHandler connectedState [reconnectLine] = .error .runtimeError := rfl

/-- C7 counterexample: with token "abc", connect() does not send
"PASS oauth:abc"; __init__'s token.lstrip("oauth:") strips the leading 'a'
as a member of the character set so the password frame carries "bc". -/
theorem connect_mangles_token_counterexample :
    (connect (initClient (("user").data) (("abc").data))).map (fun st => st.sent)
        = .ok [passFrame (("bc").data), nickFrame (("user").data), capTagsFrame, capCmdsFrame]
      ∧ [passFrame (("bc").data), nickFrame (("user").data), capTagsFrame, capCmdsFrame]
        ≠ [passFrame (("abc").data), nickFrame (("user").data), capTagsFrame, capCmdsFrame] :=
  ⟨rfl, by decide⟩

/-- C7 amended: for every username and token, connect() sends exactly, and
in this order, PASS oauth:<t>, NICK <user>, CAP REQ :twitch.tv/tags and
CAP REQ :twitch.tv/commands, where <t> is the supplied token with every
leading character drawn from the set {o,a,u,t,h,:} removed
(Python str.lstrip("oauth:")). -/
theorem connect_frames (u t : List Char) :
    (connect (initClient u t)).map (fun st => st.sent)
      = .ok [passFrame (pylstrip (("oauth:").data) t), nickFrame u,
             capTagsFrame, capCmdsFrame] := rfl

/-- C8 counterexample: a line carrying the single versionless badge entry
"broadcaster" parses with a derived badge-name set containing exactly
"broadcaster", yet isBroadcaster is false, because the code tests
startswith("broadcaster/") on the raw entries. -/
theorem versionless_broadcaster_counterexample :
    (parse versionlessBroadcasterLine).map (fun r => (r.badges.map badgeName, r.is_broadcaster))
      = .ok ([("broadcaster").data], false) := rfl

/-- C10: a chat-message line containing all eleven required tags but whose
color value itself contains an '=' character fails to parse: the tag token
splits into three fields and the (key, value) unpacking raises ValueError. -/
theorem equals_in_value_fails :
    parse equalsInValueLine = .error .valueError := rfl

theorem extract_cons_newline (s : List Char) :
    extract ('\n' :: s) = ([] :: (extract s).1, (extract s).2) := by
  simp [extract]

theorem extract_cons_other {c : Char} (hc : c ≠ '\n') (s : List Char) :
    extract (c :: s)
      = (match extract s with
         | ([], b) => ([], c :: b)
         | (l :: ls, b) => ((c :: l) :: ls, b)) := by
  simp [extract, hc]

/-- Splitting the buffer is compositional: extracting lines from a ++ b
yields the lines of a followed by the lines of a's leftover glued to b. -/
theorem extract_append (a b : List Char) :
    extract (a ++ b)
      = ((extract a).1 ++ (extract ((extract a).2 ++ b)).1,
         (extract ((extract a).2 ++ b)).2) := by
  induction a with
  | nil => simp [extract]
  | cons c a ih =>
    rcases h' : extract a with ⟨ls, r⟩
    rw [List.cons_append]
    by_cases hc : c = '\n'
    · subst hc
      rw [extract_cons_newline, extract_cons_newline, ih, h']
      simp
    · rw [extract_cons_other hc, extract_cons_other hc, ih, h']
      cases ls with
      | nil =>
        rcases hM : extract (r ++ b) with ⟨Ml, Mr⟩
        cases Ml <;> simp [extract_cons_other hc, hM]
      | cons l ls2 =>
        rcases hM : extract (r ++ b) with ⟨Ml, Mr⟩
        simp [hM]

theorem feedAll_cons (buf ch : List Char) (chs : List (List Char)) :
    feedAll buf (ch :: chs)
      = ((feed buf ch).1 ++ (feedAll (feed buf ch).2 chs).1,
         (feedAll (feed buf ch).2 chs).2) := rfl

/-- Feeding any nonempty chunk sequence emits exactly the lines of feeding
the concatenation at once, and leaves the same buffer. -/
theorem feedAll_eq_feed_join :
    ∀ (chs : List (List Char)) (buf ch : List Char),
      feedAll buf (ch :: chs) = feed buf (List.flatten (ch :: chs)) := by
  intro chs
  induction chs with
  | nil =>
    intro buf ch
    simp [feedAll_cons, feedAll, feed, List.flatten]
  | cons ch2 chs ih =>
    intro buf ch
    rw [feedAll_cons, ih]
    simp only [feed, List.flatten_cons]
    rw [← List.append_assoc buf ch (ch2 ++ chs.flatten)]
    rw [extract_append (buf ++ ch) (ch2 ++ chs.flatten)]
    simp [List.map_append]

/-- No byte is lost or duplicated: the raw extracted lines, re-terminated
with their newlines, followed by the leftover buffer, rebuild the input. -/
theorem extract_reconstruct (s : List Char) :
    ((extract s).1.map (fun l => l ++ [('\n')])).flatten ++ (extract s).2 = s := by
  induction s with
  | nil => simp [extract]
  | cons c s ih =>
    by_cases hc : c = '\n'
    · subst hc
      rw [extract_cons_newline]
      simpa using ih
    · rw [extract_cons_other hc]
      rcases h' : extract s with ⟨ls, r⟩
      rw [h'] at ih
      cases ls with
      | nil => simpa using ih
      | cons l ls2 =>
        simp only [List.map_cons, List.flatten_cons, List.cons_append,
          List.append_assoc] at ih ⊢
        rw [ih]

/-- C9 amended: the Line Framer is chunking-invariant at character
granularity: feeding the decoded character stream split into any nonempty
chunk list at character boundaries emits the same ordered complete lines
and leaves the same trailing partial line in the buffer as feeding the
whole concatenation as one chunk; moreover no character is dropped or
duplicated: the raw lines plus leftover rebuild the input. At byte
granularity the invariance fails: a chunk boundary inside a multi-byte
utf-8 character makes the per-chunk decode of line 171 raise
UnicodeDecodeError (see the counterexample). -/
theorem framer_chunking_invariant (ch s : List Char) (chs : List (List Char)) :
    feedAll [] (ch :: chs) = feed [] (List.flatten (ch :: chs))
      ∧ ((extract s).1.map (fun l => l ++ [('\n')])).flatten ++ (extract s).2 = s :=
  ⟨feedAll_eq_feed_join chs [] ch, extract_reconstruct s⟩

theorem exbind_ok (a : α) (f : α → Except PyErr β) : exbind (.ok a) f = f a := rfl

theorem pysplit1Aux_no_sep {sep : Char} :
    ∀ {s : List Char}, sep ∉ s → ∀ (m : Option Nat) (acc : List Char),
      pysplit1Aux sep m acc s = [acc.reverse ++ s] := by
  intro s
  induction s with
  | nil => intro _ m acc; simp [pysplit1Aux]
  | cons c s ih =>
    intro h m acc
    have hc : ¬(c = sep ∧ m ≠ some 0) := by
      intro hcon
      exact h (by rw [← hcon.1]; exact List.mem_cons_self c s)
    simp only [pysplit1Aux]
    rw [if_neg hc, ih (fun hm => h (List.mem_cons_of_mem c hm)) m (c :: acc)]
    simp

theorem pysplit1_no_sep {sep : Char} {s : List Char} (h : sep ∉ s) (m : Option Nat) :
    pysplit1 sep m s = [s] := by
  unfold pysplit1
  rw [pysplit1Aux_no_sep h m []]
  simp

theorem pysplit1Aux_sep {sep : Char} :
    ∀ {a : List Char}, sep ∉ a → ∀ {m : Option Nat}, m ≠ some 0 →
      ∀ (acc b : List Char),
        pysplit1Aux sep m acc (a ++ sep :: b)
          = (acc.reverse ++ a) :: pysplit1Aux sep (decOpt m) [] b := by
  intro a
  induction a with
  | nil =>
    intro _ m hm acc b
    simp [pysplit1Aux, hm]
  | cons c a ih =>
    intro h m hm acc b
    have hc : ¬(c = sep ∧ m ≠ some 0) := by
      intro hcon
      exact h (by rw [← hcon.1]; exact List.mem_cons_self c a)
    simp only [List.cons_append, pysplit1Aux, List.append_eq]
    rw [if_neg hc, ih (fun hm2 => h (List.mem_cons_of_mem c hm2)) hm (c :: acc) b]
    simp

theorem pysplit1_sep {sep : Char} {a : List Char} (h : sep ∉ a) {m : Option Nat}
    (hm : m ≠ some 0) (b : List Char) :
    pysplit1 sep m (a ++ sep :: b) = a :: pysplit1 sep (decOpt m) b := by
  unfold pysplit1
  rw [pysplit1Aux_sep h hm [] b]
  simp

theorem intercalate_cons_cons2 (s x y : List Char) (l : List (List Char)) :
    List.intercalate s (x :: y :: l) = x ++ s ++ List.intercalate s (y :: l) := by
  simp [List.intercalate, List.intersperse_cons_cons, List.append_assoc]

theorem pysplit1_intercalate {sep : Char} :
    ∀ {l : List (List Char)}, (∀ x ∈ l, sep ∉ x) → l ≠ [] →
      pysplit1 sep none (List.intercalate [sep] l) = l := by
  intro l
  induction l with
  | nil => intro _ h; exact absurd rfl h
  | cons x l ih =>
    intro h _
    cases l with
    | nil =>
      rw [show List.intercalate [sep] [x] = x from by simp [List.intercalate]]
      exact pysplit1_no_sep (h x (List.mem_cons_self x [])) none
    | cons y l2 =>
      rw [intercalate_cons_cons2, List.append_assoc, List.singleton_append]
      rw [pysplit1_sep (h x (List.mem_cons_self x (y :: l2))) (by simp)
        (List.intercalate [sep] (y :: l2))]
      rw [show decOpt none = none from rfl]
      rw [ih (fun z hz => h z (List.mem_cons_of_mem x hz)) (by simp)]

theorem not_mem_intercalate {c sep : Char} (hcs : c ≠ sep) :
    ∀ {l : List (List Char)}, (∀ x ∈ l, c ∉ x) → c ∉ List.intercalate [sep] l := by
  intro l
  induction l with
  | nil => intro _; simp [List.intercalate]
  | cons x l ih =>
    intro h
    cases l with
    | nil =>
      rw [show List.intercalate [sep] [x] = x from by simp [List.intercalate]]
      exact h x (List.mem_cons_self x [])
    | cons y l2 =>
      rw [intercalate_cons_cons2]
      intro hmem
      rcases List.mem_append.mp hmem with h1 | h1
      · rcases List.mem_append.mp h1 with h2 | h2
        · exact h x (List.mem_cons_self x (y :: l2)) h2
        · exact hcs (List.mem_singleton.mp h2)
      · exact ih (fun z hz => h z (List.mem_cons_of_mem x hz)) h1

theorem hasPair_eq_false_of_not_mem {s1 s2 : Char} :
    ∀ {s : List Char}, s1 ∉ s → hasPair s1 s2 s = false := by
  intro s
  induction s with
  | nil => intro _; rfl
  | cons c s ih =>
    intro h
    cases s with
    | nil => rfl
    | cons d s2' =>
      have hc : c ≠ s1 := by
        intro hcc
        exact h (by rw [← hcc]; exact List.mem_cons_self c (d :: s2'))
      have ht : hasPair s1 s2 (d :: s2') = false :=
        ih (fun hm => h (List.mem_cons_of_mem c hm))
      show ((c = s1 && d = s2) || hasPair s1 s2 (d :: s2')) = false
      simp [hc, ht]

theorem pysplit2Aux_no_pair {s1 s2 : Char} :
    ∀ {s : List Char}, hasPair s1 s2 s = false → ∀ (m : Option Nat) (acc : List Char),
      pysplit2Aux s1 s2 m acc s = [acc.reverse ++ s] := by
  intro s
  induction s with
  | nil => intro _ m acc; simp [pysplit2Aux]
  | cons c s ih =>
    intro h m acc
    cases s with
    | nil => simp [pysplit2Aux]
    | cons d rest =>
      have h' : ((c = s1 && d = s2) || hasPair s1 s2 (d :: rest)) = false := h
      simp only [Bool.or_eq_false_iff] at h'
      have hp : ¬(c = s1 ∧ d = s2 ∧ m ≠ some 0) := by
        intro hcon
        have := h'.1
        simp [hcon.1, hcon.2.1] at this
      simp only [pysplit2Aux]
      rw [if_neg hp, ih h'.2 m (c :: acc)]
      simp

theorem pysplit2Aux_sep {s1 s2 : Char} (hne : s1 ≠ s2) :
    ∀ {a : List Char}, hasPair s1 s2 a = false → ∀ {m : Option Nat}, m ≠ some 0 →
      ∀ (acc b : List Char),
        pysplit2Aux s1 s2 m acc (a ++ s1 :: s2 :: b)
          = (acc.reverse ++ a) :: pysplit2Aux s1 s2 (decOpt m) [] b := by
  intro a
  induction a with
  | nil =>
    intro _ m hm acc b
    simp [pysplit2Aux, hm]
  | cons c a ih =>
    intro h m hm acc b
    cases a with
    | nil =>
      simp [pysplit2Aux, hne, hm]
    | cons d a2 =>
      simp only [List.cons_append, pysplit2Aux, List.append_eq]
      have h' : ((c = s1 && d = s2) || hasPair s1 s2 (d :: a2)) = false := h
      simp only [Bool.or_eq_false_iff] at h'
      have hp : ¬(c = s1 ∧ d = s2 ∧ m ≠ some 0) := by
        intro hcon
        have := h'.1
        simp [hcon.1, hcon.2.1] at this
      rw [if_neg hp]
      have hstep := ih h'.2 hm (c :: acc) b
      simp only [List.cons_append] at hstep
      rw [hstep]
      simp

/-- Parsing the example-shaped line with an arbitrary raw badges value bv
(no space, ';' or '=' in bv): the badges field is the raw comma-split of bv
and isBroadcaster tests startswith("broadcaster/") on the raw entries. -/
theorem parse_lineWithBadges {bv : List Char}
    (hsp : (' ') ∉ bv) (hsemi : (';') ∉ bv) (heq : ('=') ∉ bv) :
    parse (lineWithBadges bv) = .ok (resultWithBadges bv) := by
  have hne : (' ') ≠ (':') := by decide
  have hspA : (' ') ∉ tagBlockWithBadges bv := by
    intro hmem
    unfold tagBlockWithBadges at hmem
    rcases List.mem_append.mp hmem with h1 | h1
    · rcases List.mem_append.mp h1 with h2 | h2
      · exact absurd h2 (by decide)
      · rcases List.mem_cons.mp h2 with h3 | h3
        · exact absurd h3 (by decide)
        · exact hsp h3
    · rcases List.mem_cons.mp h1 with h3 | h3
      · exact absurd h3 (by decide)
      · exact absurd h3 (by decide)
  have h1 : pysplit2 ' ' ':' (some 3) (lineWithBadges bv)
      = [tagBlockWithBadges bv, midToken, ("hi").data] := by
    unfold lineWithBadges pysplit2
    rw [pysplit2Aux_sep hne (hasPair_eq_false_of_not_mem hspA)
      (show (some 3 : Option Nat) ≠ some 0 by decide)]
    rw [pysplit2Aux_sep hne (show hasPair ' ' ':' midToken = false by decide)
      (show decOpt (some 3) ≠ some 0 by decide)]
    rw [pysplit2Aux_no_pair (show hasPair ' ' ':' (("hi").data) = false by decide)]
    simp
  have h2 : pysplit1 ';' none (tagBlockWithBadges bv)
      = (("badges").data ++ ('=') :: bv) :: tagFields := by
    have hsemiA : (';') ∉ ("badges").data ++ ('=') :: bv := by
      intro hmem
      rcases List.mem_append.mp hmem with hh | hh
      · exact absurd hh (by decide)
      · rcases List.mem_cons.mp hh with h3 | h3
        · exact absurd h3 (by decide)
        · exact hsemi h3
    unfold tagBlockWithBadges pysplit1
    rw [pysplit1Aux_sep hsemiA (show (none : Option Nat) ≠ some 0 by simp)]
    rw [show pysplit1Aux ';' (decOpt none) [] tagsTail = tagFields from rfl]
    simp
  have h3 : pysplit1 '=' none (("badges").data ++ ('=') :: bv)
      = [("badges").data, bv] := by
    unfold pysplit1
    rw [pysplit1Aux_sep (show ('=') ∉ ("badges").data by decide)
      (show (none : Option Nat) ≠ some 0 by simp)]
    rw [pysplit1Aux_no_sep heq]
    simp
  have e1 : mkDict tagFields = .ok tagPairsTail := rfl
  simp only [parse, h1, pyindex, exbind_ok]
  rw [h2]
  simp only [mkDict, h3, e1]
  rfl

/-- C4 amended: for every nonempty list of badge entries (no space, ';',
'=' or ',' inside an entry), parsing a well-formed line whose raw badges
value joins the entries with ',' succeeds, and the parsed badges field is
exactly the set of raw comma-separated entries, version suffixes retained
(an entry "subscriber/12" contributes "subscriber/12", not "subscriber"). -/
theorem badges_are_raw_entries (entries : List (List Char)) (hne : entries ≠ [])
    (hwf : ∀ e ∈ entries, (' ') ∉ e ∧ (';') ∉ e ∧ ('=') ∉ e ∧ (',') ∉ e) :
    (parse (lineWithBadges (List.intercalate [(',')] entries))).map (fun r => r.badges)
      = .ok entries := by
  have hsp : (' ') ∉ List.intercalate [(',')] entries :=
    not_mem_intercalate (by decide) (fun x hx => (hwf x hx).1)
  have hsemi : (';') ∉ List.intercalate [(',')] entries :=
    not_mem_intercalate (by decide) (fun x hx => (hwf x hx).2.1)
  have heq : ('=') ∉ List.intercalate [(',')] entries :=
    not_mem_intercalate (by decide) (fun x hx => (hwf x hx).2.2.1)
  have hsplit : pysplit1 ',' none (List.intercalate [(',')] entries) = entries :=
    pysplit1_intercalate (fun x hx => (hwf x hx).2.2.2) hne
  rw [parse_lineWithBadges hsp hsemi heq]
  simp [Except.map, resultWithBadges, hsplit]

/-- C4 amended witness: the theorem applied to the example's two entries. -/
theorem badges_are_raw_entries_witness :
    (parse (lineWithBadges (List.intercalate [(',')]
        [("subscriber/12").data, ("premium/1").data]))).map (fun r => r.badges)
      = .ok [("subscriber/12").data, ("premium/1").data] :=
  badges_are_raw_entries [("subscriber/12").data, ("premium/1").data]
    (by decide) (by decide)

/-- C8 amended: isBroadcaster is true exactly when some raw badge entry
starts with "broadcaster/"; in particular a versioned entry "broadcaster/1"
yields true, while an entry set without one (including the versionless
entry "broadcaster" alone) yields false. -/
theorem broadcaster_iff_prefixed_entry (entries : List (List Char)) (hne : entries ≠ [])
    (hwf : ∀ e ∈ entries, (' ') ∉ e ∧ (';') ∉ e ∧ ('=') ∉ e ∧ (',') ∉ e) :
    (parse (lineWithBadges (List.intercalate [(',')] entries))).map (fun r => r.is_broadcaster)
      = .ok (entries.any (fun b => pyStartsWith (("broadcaster/").data) b)) := by
  have hsp : (' ') ∉ List.intercalate [(',')] entries :=
    not_mem_intercalate (by decide) (fun x hx => (hwf x hx).1)
  have hsemi : (';') ∉ List.intercalate [(',')] entries :=
    not_mem_intercalate (by decide) (fun x hx => (hwf x hx).2.1)
  have heq : ('=') ∉ List.intercalate [(',')] entries :=
    not_mem_intercalate (by decide) (fun x hx => (hwf x hx).2.2.1)
  have hsplit : pysplit1 ',' none (List.intercalate [(',')] entries) = entries :=
    pysplit1_intercalate (fun x hx => (hwf x hx).2.2.2) hne
  rw [parse_lineWithBadges hsp hsemi heq]
  simp [Except.map, resultWithBadges, hsplit]

/-- C8 amended witness: a versioned broadcaster badge yields true. -/
theorem broadcaster_iff_prefixed_entry_witness :
    (parse (lineWithBadges (List.intercalate [(',')]
        [("broadcaster/1").data, ("subscriber/12").data]))).map (fun r => r.is_broadcaster)
      = .ok true :=
  (broadcaster_iff_prefixed_entry [("broadcaster/1").data, ("subscriber/12").data]
    (by decide) (by decide)).trans (by rfl)

/-- C9 counterexample: the utf-8 bytes of the line "é" plus newline
(C3 A9 0A) fed as one chunk yield the single line "é" with an empty buffer,
but the same bytes split into chunks [C3] and [A9, 0A] — the boundary
falling inside the two-byte character — make the first chunk's
bytes.decode("utf-8") raise UnicodeDecodeError, killing the read loop: the
two chunkings of one byte sequence do not yield the same lines. -/
theorem byte_split_inside_char_counterexample :
    recvBytes [] [[0xC3], [0xA9, 0x0A]] = .error .unicodeDecodeError
      ∧ recvBytes [] [[0xC3, 0xA9, 0x0A]] = .ok ([[Char.ofNat 0xE9]], []) :=
  ⟨rfl, rfl⟩

theorem exbind_error (e : PyErr) (f : α → Except PyErr β) :
    exbind (.error e) f = .error e := rfl

theorem not_mem_tagBlock {c : Char} (hsep : c ≠ ';') (heqc : c ≠ '=')
    {ps : List (List Char × List Char)} (h : ∀ p ∈ ps, c ∉ p.1 ∧ c ∉ p.2) :
    c ∉ tagBlock ps := by
  unfold tagBlock
  apply not_mem_intercalate hsep
  intro x hx
  rcases List.mem_map.mp hx with ⟨p, hp, rfl⟩
  intro hmem
  rcases List.mem_append.mp hmem with h1 | h1
  · exact (h p hp).1 h1
  · rcases List.mem_cons.mp h1 with h2 | h2
    · exact heqc h2
    · exact (h p hp).2 h2

theorem pysplit1_tagBlock {ps : List (List Char × List Char)} (hps : ps ≠ [])
    (h : ∀ p ∈ ps, (';') ∉ p.1 ∧ (';') ∉ p.2) :
    pysplit1 ';' none (tagBlock ps) = ps.map (fun p => p.1 ++ ('=') :: p.2) := by
  unfold tagBlock
  apply pysplit1_intercalate
  · intro x hx
    rcases List.mem_map.mp hx with ⟨p, hp, rfl⟩
    intro hmem
    rcases List.mem_append.mp hmem with h1 | h1
    · exact (h p hp).1 h1
    · rcases List.mem_cons.mp h1 with h2 | h2
      · exact absurd h2 (by decide)
      · exact (h p hp).2 h2
  · intro hnil
    exact hps (by simpa using hnil)

theorem mkDict_pairs :
    ∀ {ps : List (List Char × List Char)},
      (∀ p ∈ ps, ('=') ∉ p.1 ∧ ('=') ∉ p.2) →
      mkDict (ps.map (fun p => p.1 ++ ('=') :: p.2)) = .ok ps := by
  intro ps
  induction ps with
  | nil => intro _; rfl
  | cons p ps ih =>
    intro h
    have hsplit : pysplit1 '=' none (p.1 ++ ('=') :: p.2) = [p.1, p.2] := by
      rw [pysplit1_sep (h p (List.mem_cons_self p ps)).1 (by simp) p.2]
      rw [show decOpt none = none from rfl]
      rw [pysplit1_no_sep (h p (List.mem_cons_self p ps)).2 none]
    simp [mkDict, hsplit, ih (fun q hq => h q (List.mem_cons_of_mem p hq))]

theorem digit_not_space {c : Char} (hc : c.isDigit = true) : pyIsSpace c = false := by
  rcases hs : pyIsSpace c with _ | _
  · rfl
  · exfalso
    unfold pyIsSpace at hs
    simp only [Bool.or_eq_true, decide_eq_true_eq] at hs
    rcases hs with ((((h | h) | h) | h) | h) | h <;> (subst h; exact absurd hc (by decide))

theorem pyint_digits {v : List Char} (hv : v ≠ []) (hd : allDigits v = true) :
    pyint v = .ok ((natOfDigits v : Int)) := by
  have hall : ∀ x ∈ v, x.isDigit = true := List.all_eq_true.mp hd
  have hns : v.dropWhile pyIsSpace = v := by
    cases v with
    | nil => rfl
    | cons c cs =>
      have hcs : pyIsSpace c = false :=
        digit_not_space (hall c (List.mem_cons_self c cs))
      simp [List.dropWhile_cons, hcs]
  have hns2 : v.reverse.dropWhile pyIsSpace = v.reverse := by
    rcases hrev : v.reverse with _ | ⟨d, ds⟩
    · rfl
    · have hdm : d ∈ v := by
        have : d ∈ v.reverse := by rw [hrev]; exact List.mem_cons_self d ds
        exact List.mem_reverse.mp this
      have hds : pyIsSpace d = false := digit_not_space (hall d hdm)
      simp [List.dropWhile_cons, hds]
  have hstrip : pystrip v = v := by
    unfold pystrip
    rw [hns, hns2, List.reverse_reverse]
  unfold pyint
  rw [hstrip]
  rcases v with _ | ⟨c, cs⟩
  · exact absurd rfl hv
  · have hcd : c.isDigit = true := hall c (List.mem_cons_self c cs)
    have hcm : c ≠ '-' := by intro h2; subst h2; exact absurd hcd (by decide)
    have hcp : c ≠ '+' := by intro h2; subst h2; exact absurd hcd (by decide)
    split
    · next ds heq =>
      injection heq with h1 _
      exact absurd h1 hcm
    · next ds heq =>
      injection heq with h1 _
      exact absurd h1 hcp
    · next =>
      rw [if_pos ⟨List.cons_ne_nil c cs, hd⟩]

/-- parse on a line with an arbitrary well-formed tag block reduces to the
residual lookup computation with the tag dict equal to the given pairs. -/
theorem parse_tagBlock {ps : List (List Char × List Char)} (hps : ps ≠ [])
    (hwf : ∀ p ∈ ps, ((' ') ∉ p.1 ∧ (';') ∉ p.1 ∧ ('=') ∉ p.1)
        ∧ ((' ') ∉ p.2 ∧ (';') ∉ p.2 ∧ ('=') ∉ p.2)) :
    parse (mkLine ps) = parseTagsOnly ps := by
  have hsp : (' ') ∉ tagBlock ps :=
    not_mem_tagBlock (by decide) (by decide)
      (fun p hp => ⟨(hwf p hp).1.1, (hwf p hp).2.1⟩)
  have h1 : pysplit2 ' ' ':' (some 3) (mkLine ps)
      = [tagBlock ps, midToken, ("hi").data] := by
    unfold mkLine pysplit2
    rw [pysplit2Aux_sep (by decide) (hasPair_eq_false_of_not_mem hsp)
      (show (some 3 : Option Nat) ≠ some 0 by decide)]
    rw [pysplit2Aux_sep (by decide) (show hasPair ' ' ':' midToken = false by decide)
      (show decOpt (some 3) ≠ some 0 by decide)]
    rw [pysplit2Aux_no_pair (show hasPair ' ' ':' (("hi").data) = false by decide)]
    simp
  have h2 : pysplit1 ';' none (tagBlock ps) = ps.map (fun p => p.1 ++ ('=') :: p.2) :=
    pysplit1_tagBlock hps (fun p hp => ⟨(hwf p hp).1.2.1, (hwf p hp).2.2.1⟩)
  have h3 : mkDict (ps.map (fun p => p.1 ++ ('=') :: p.2)) = .ok ps :=
    mkDict_pairs (fun p hp => ⟨(hwf p hp).1.2.2, (hwf p hp).2.2.2⟩)
  simp only [parse, h1, pyindex, exbind_ok]
  rw [h2, h3]
  rfl

/-- C3: for every required tag key k and every assignment of values to the
tag keys — each value free of ' ', ';' and '=', and a numeric room-id as a
well-formed chat-message line demands — parsing the line that carries every
required tag except k, in canonical order, fails with KeyError naming
exactly k (the code's realization of MissingTag) and never with any other
exception. -/
theorem missing_tag_keyerror (k : List Char) (vals : List Char → List Char)
    (hk : k ∈ requiredTags)
    (hwf : ∀ q ∈ requiredTags, (' ') ∉ vals q ∧ (';') ∉ vals q ∧ ('=') ∉ vals q)
    (hroom : vals (("room-id").data) ≠ [] ∧ allDigits (vals (("room-id").data)) = true) :
    parse (lineMissing k vals) = .error (.keyError k) := by
  have hkeys : ∀ r ∈ requiredTags, (' ') ∉ r ∧ (';') ∉ r ∧ ('=') ∉ r := by decide
  have hps : (requiredTags.filter (fun q => q ≠ k)).map (fun q => (q, vals q)) ≠ [] := by
    intro hnil
    have hfil : requiredTags.filter (fun q => q ≠ k) = [] := by
      cases hfe : requiredTags.filter (fun q => q ≠ k) with
      | nil => rfl
      | cons a l =>
        rw [hfe] at hnil
        exact absurd hnil (by simp)
    by_cases hbk : ("badges").data = k
    · by_cases hck : ("color").data = k
      · exact absurd (hbk.trans hck.symm) (by decide)
      · have hmem : ("color").data ∈ requiredTags.filter (fun q => q ≠ k) :=
          List.mem_filter.mpr ⟨by decide, by simp [hck]⟩
        rw [hfil] at hmem
        exact absurd hmem (List.not_mem_nil _)
    · have hmem : ("badges").data ∈ requiredTags.filter (fun q => q ≠ k) :=
        List.mem_filter.mpr ⟨by decide, by simp [hbk]⟩
      rw [hfil] at hmem
      exact absurd hmem (List.not_mem_nil _)
  have hwfps : ∀ p ∈ (requiredTags.filter (fun q => q ≠ k)).map (fun q => (q, vals q)),
      ((' ') ∉ p.1 ∧ (';') ∉ p.1 ∧ ('=') ∉ p.1)
        ∧ ((' ') ∉ p.2 ∧ (';') ∉ p.2 ∧ ('=') ∉ p.2) := by
    intro p hp
    rcases List.mem_map.mp hp with ⟨q, hq, rfl⟩
    have hq2 : q ∈ requiredTags := (List.mem_filter.mp hq).1
    exact ⟨hkeys q hq2, hwf q hq2⟩
  have hpy : pyint (vals (("room-id").data))
      = .ok ((natOfDigits (vals (("room-id").data)) : Int)) :=
    pyint_digits hroom.1 hroom.2
  rw [show lineMissing k vals
      = mkLine ((requiredTags.filter (fun q => q ≠ k)).map (fun q => (q, vals q))) from rfl]
  rw [parse_tagBlock hps hwfps]
  simp only [requiredTags, List.mem_cons, List.not_mem_nil, or_false] at hk
  rcases hk with rfl | rfl | rfl | rfl | rfl | rfl | rfl | rfl | rfl | rfl | rfl
  · rfl
  · rfl
  · rfl
  · rfl
  · rfl
  · rfl
  · rfl
  · rfl
  · change exbind (pyint (vals (("room-id").data))) _ = _
    rw [hpy, exbind_ok]
    rfl
  · change exbind (pyint (vals (("room-id").data))) _ = _
    rw [hpy, exbind_ok]
    rfl
  · change exbind (pyint (vals (("room-id").data))) _ = _
    rw [hpy, exbind_ok]
    rfl

/-- C3 witness: the theorem applied to the key "turbo" (a key looked up
after the room-id integer conversion) with a concrete value assignment. -/
theorem missing_tag_keyerror_witness :
    parse (lineMissing (("turbo").data) exampleVals)
      = .error (.keyError (("turbo").data)) :=
  missing_tag_keyerror (("turbo").data) exampleVals (by decide) (by decide) (by decide)

end Twitchy
